import Mathlib

/-!
Verification development for the timestamp-normalization core of the
Free_Tools repository (`Date_Time_Parser/Timestamp_Parser_toDays.py`).

The Python function `TimestampParser.parse_timestamp_to_days` is embedded
shallowly: strings become `List Char`, each `re.search`/`re.sub` call becomes
a bespoke total matcher with the same leftmost-match semantics, and CPython's
`datetime.strptime` is embedded as a deep token list (`FTok`) whose per-token
semantics mirror CPython's `_strptime.TimeRE` regexes (`%d` = `3[01]|[12]\d|0[1-9]|[1-9]`,
`%m` = `1[0-2]|0[1-9]|[1-9]`, `%Y` = four digits, `%B`/`%b` = month-name
alternation longest-first, format whitespace = one-or-more whitespace,
whole-string consumption required).

The reference instant (`datetime.now()` in the source) is modelled as a
calendar date `Date`.  Python computes `(now - parsed_dt).days` where
`parsed_dt` is a midnight datetime; since `0 <= seconds-of-day < 86400`,
`timedelta.days` equals the difference of the calendar-day numbers of the two
dates, so the time-of-day component provably cancels and is omitted.
`max 0 _`, date validation (`ValueError` on construction) and the
year-inference rule are translated line by line from the source.
-/

/-! ## Calendar arithmetic (model of Python `datetime.date`) -/

/-- Gregorian leap-year test, as implemented by Python `datetime`. -/
def isLeap (y : Nat) : Bool :=
  y % 4 = 0 && (!(y % 100 = 0) || y % 400 = 0)

/-- Days in month given the leap flag. Months outside 1..12 give 0. -/
def daysInMonthL (leap : Bool) (m : Nat) : Nat :=
  match m with
  | 1 => 31 | 2 => if leap then 29 else 28 | 3 => 31 | 4 => 30
  | 5 => 31 | 6 => 30 | 7 => 31 | 8 => 31
  | 9 => 30 | 10 => 31 | 11 => 30 | 12 => 31
  | _ => 0

def daysInMonth (y m : Nat) : Nat := daysInMonthL (isLeap y) m

/-- Days in the year strictly before month `m` (non-leap base table). -/
def monthOff (m : Nat) : Nat :=
  match m with
  | 1 => 0 | 2 => 31 | 3 => 59 | 4 => 90 | 5 => 120 | 6 => 151
  | 7 => 181 | 8 => 212 | 9 => 243 | 10 => 273 | 11 => 304 | 12 => 334
  | _ => 400

/-- Day-of-year (1-based), parametrized by the leap flag. -/
def doyL (leap : Bool) (m d : Nat) : Nat :=
  monthOff m + (if 3 ≤ m && leap then 1 else 0) + d

/-- Days in all years strictly before year `y` (proleptic Gregorian, year 1 first). -/
def daysBeforeYear (y : Nat) : Nat :=
  365 * (y - 1) + (y - 1) / 4 + (y - 1) / 400 - (y - 1) / 100

/-- Day number of a calendar date (Rata Die style); differences of this
function equal Python `(d2 - d1).days` for midnight datetimes. -/
def rataDie (y m d : Nat) : Nat :=
  daysBeforeYear y + doyL (isLeap y) m d

/-- The reference instant, modelled as a calendar date (see module comment). -/
structure Date where
  year : Nat
  month : Nat
  day : Nat
deriving DecidableEq, Repr

/-- Validity of a (year, month, day) triple exactly as enforced by the
`datetime` constructor: `MINYEAR = 1 <= year <= MAXYEAR = 9999`, month in
range, day in range for the month. -/
def validDate (y m d : Nat) : Bool :=
  1 ≤ y && y ≤ 9999 && 1 ≤ m && m ≤ 12 && 1 ≤ d && d ≤ daysInMonth y m

/-- `parsed_dt_curr_year.date() > now.date()` : strict lexicographic
comparison of the parsed triple against the reference date. -/
def dateAfter (dt : Nat × Nat × Nat) (now : Date) : Bool :=
  decide (now.year < dt.1 ∨ (now.year = dt.1 ∧
    (now.month < dt.2.1 ∨ (now.month = dt.2.1 ∧ now.day < dt.2.2))))

/-- `(now - parsed_dt).days` for a midnight `parsed_dt`. -/
def diffDays (now : Date) (dt : Nat × Nat × Nat) : Int :=
  (rataDie now.year now.month now.day : Int) - (rataDie dt.1 dt.2.1 dt.2.2 : Int)

/-! ## Character and string helpers (models of Python `str` / `re` primitives) -/

/-- Python regex `\s` class (ASCII part): space, tab, newline, carriage
return, vertical tab, form feed.  Also used to model `str.strip()`. -/
def isWsC (c : Char) : Bool :=
  c = ' ' || c = '\t' || c = '\n' || c = '\r' || c = '\x0b' || c = '\x0c'

/-- Python regex `\w` word-character class (ASCII part). -/
def isWordC (c : Char) : Bool := c.isAlphanum || c = '_'

/-- ASCII lowercasing, modelling `str.lower()` on the inputs of interest. -/
def lowerC (c : Char) : Char := c.toLower

/-- `str.strip()`: drop leading and trailing whitespace. -/
def trimWs (cs : List Char) : List Char :=
  ((cs.dropWhile isWsC).reverse.dropWhile isWsC).reverse

/-- Decimal value of a digit character. -/
def charVal (c : Char) : Nat := c.toNat - '0'.toNat

/-- Value of a digit string, e.g. the capture of `(\d+)` passed to `int()`. -/
def digitsVal (ds : List Char) : Nat :=
  ds.foldl (fun a c => 10 * a + charVal c) 0

/-- `p` is a prefix of `cs`. -/
def startsWithL : List Char → List Char → Bool
  | [], _ => true
  | _ :: _, [] => false
  | p :: ps, c :: cs => p = c && startsWithL ps cs

/-- Substring containment, modelling Python `pat in s`. -/
def containsSub (pat : List Char) : List Char → Bool
  | [] => startsWithL pat []
  | c :: rest => startsWithL pat (c :: rest) || containsSub pat rest

/-- Leftmost-match search: try the matcher at every start position, left to
right, modelling `re.search`. -/
def searchPos (f : List Char → Option α) : List Char → Option α
  | [] => f []
  | c :: rest =>
    match f (c :: rest) with
    | some x => some x
    | none => searchPos f rest

/-- Boolean variant of `searchPos`. -/
def searchPosB (f : List Char → Bool) : List Char → Bool
  | [] => f []
  | c :: rest => f (c :: rest) || searchPosB f rest

/-- Word boundary `\b` after a word character: next char absent or non-word. -/
def boundaryOk : List Char → Bool
  | [] => true
  | c :: _ => !isWordC c

/-- One alternative of a unit alternation followed by `\b`: the alternative
must be a literal prefix and a word boundary must follow it. -/
def altBoundaryOk (alts : List (List Char)) (rest : List Char) : Bool :=
  alts.any fun a => startsWithL a rest && boundaryOk (rest.drop a.length)

/-! ## Stage 2: immediate phrases -/

/-- `any(phrase in ts_lower for phrase in ["just now", " now", "a moment ago", "moments ago"])` -/
def containsAnyPhrase (cs : List Char) : Bool :=
  containsSub "just now".data cs || containsSub " now".data cs ||
    containsSub "a moment ago".data cs || containsSub "moments ago".data cs

/-! ## Stage 3: sub-day unit patterns (each models one `re.search`) -/

/-- Match of `(\d+)\s*s(?:ec|ecs|econd|econds)?\b` at the current position. -/
def matchSecAt (cs : List Char) : Bool :=
  match cs.span Char.isDigit with
  | ([], _) => false
  | (_ :: _, r1) =>
    match r1.dropWhile isWsC with
    | 's' :: r3 =>
      altBoundaryOk ["ec".data, "ecs".data, "econd".data, "econds".data] r3 ||
        boundaryOk r3
    | _ => false

/-- Match of `(\d+)\s*(?:m|min|mins|minute|minutes)\b` at the current position. -/
def matchMinAt (cs : List Char) : Bool :=
  match cs.span Char.isDigit with
  | ([], _) => false
  | (_ :: _, r1) =>
    altBoundaryOk ["m".data, "min".data, "mins".data, "minute".data, "minutes".data]
      (r1.dropWhile isWsC)

/-- Match of `(\d+)\s*(?:h|hr|hrs|hour|hours)\b` at the current position. -/
def matchHrAt (cs : List Char) : Bool :=
  match cs.span Char.isDigit with
  | ([], _) => false
  | (_ :: _, r1) =>
    altBoundaryOk ["h".data, "hr".data, "hrs".data, "hour".data, "hours".data]
      (r1.dropWhile isWsC)

def searchSeconds (cs : List Char) : Bool := searchPosB matchSecAt cs
def searchMinutes (cs : List Char) : Bool := searchPosB matchMinAt cs
def searchHours (cs : List Char) : Bool := searchPosB matchHrAt cs

/-! ## Stage 5: day/week shorthand (captures the integer) -/

/-- Match of `(\d+)\s*(?:d|day|days)\b(?:\s*ago)?`, returning the capture. -/
def matchDayAt (cs : List Char) : Option Nat :=
  match cs.span Char.isDigit with
  | ([], _) => none
  | (ds, r1) =>
    if altBoundaryOk ["d".data, "day".data, "days".data] (r1.dropWhile isWsC) then
      some (digitsVal ds)
    else none

/-- Match of `(\d+)\s*(?:w|wk|week|weeks)\b(?:\s*ago)?`, returning the capture. -/
def matchWkAt (cs : List Char) : Option Nat :=
  match cs.span Char.isDigit with
  | ([], _) => none
  | (ds, r1) =>
    if altBoundaryOk ["w".data, "wk".data, "week".data, "weeks".data] (r1.dropWhile isWsC) then
      some (digitsVal ds)
    else none

def searchDaysCap (cs : List Char) : Option Nat := searchPos matchDayAt cs
def searchWeeksCap (cs : List Char) : Option Nat := searchPos matchWkAt cs

/-! ## Stage 9: `"N units ago"` special patterns -/

/-- Match of `(\d+)\s+UNITs?\s+ago` (e.g. `(\d+)\s+days?\s+ago`) at the
current position, returning the capture. -/
def matchSpecialAt (unit : List Char) (cs : List Char) : Option Nat :=
  match cs.span Char.isDigit with
  | ([], _) => none
  | (ds, r1) =>
    match r1 with
    | c :: r1' =>
      if isWsC c then
        let r2 := r1'.dropWhile isWsC
        if startsWithL unit r2 then
          let r3 := r2.drop unit.length
          let r4 := match r3 with
            | 's' :: r3' => r3'
            | other => other
          match r4 with
          | c2 :: r6 =>
            if isWsC c2 && startsWithL "ago".data (r6.dropWhile isWsC) then
              some (digitsVal ds)
            else none
          | [] => none
        else none
      else none
    | [] => none

def searchSpecial (unit : List Char) (cs : List Char) : Option Nat :=
  searchPos (matchSpecialAt unit) cs

/-! ## Stage 6: cleanup preprocessing (the three `re.sub` calls and the
month-abbreviation substitutions) -/

/-- Consume one-or-more whitespace (`\s+`), greedily. -/
def eatWs1 : List Char → Option (List Char)
  | c :: r => if isWsC c then some (r.dropWhile isWsC) else none
  | [] => none

/-- Consume a literal string. -/
def eatPre (pat cs : List Char) : Option (List Char) :=
  if startsWithL pat cs then some (cs.drop pat.length) else none

/-- Consume `\d{1,2}:` (one or two digits followed by a colon), preferring the
two-digit form as the regex engine does. -/
def eatHourColon : List Char → Option (List Char)
  | a :: b :: c :: r =>
    if a.isDigit && b.isDigit && c = ':' then some r
    else if a.isDigit && b = ':' then some (c :: r)
    else none
  | [a, b] => if a.isDigit && b = ':' then some [] else none
  | _ => none

/-- Consume exactly two digits (`\d{2}`). -/
def eatTwoDigits : List Char → Option (List Char)
  | a :: b :: r => if a.isDigit && b.isDigit then some r else none
  | _ => none

/-- Optional `(?::\d{2})?`: consumed only when a colon and two digits follow. -/
def optColonSec (cs : List Char) : List Char :=
  match cs with
  | ':' :: a :: b :: r => if a.isDigit && b.isDigit then r else cs
  | _ => cs

/-- Optional `(?:\s*[ap]m)?`. -/
def optAmPm (cs : List Char) : List Char :=
  match cs.dropWhile isWsC with
  | x :: 'm' :: r2 => if x = 'a' || x = 'p' then r2 else cs
  | _ => cs

/-- Full match, at the current position, of
`\s+at\s+\d{1,2}:\d{2}(?::\d{2})?(?:\s*[ap]m)?`; returns the rest of the
string after the matched span. -/
def matchAtTimeRest (cs : List Char) : Option (List Char) := do
  let r1 ← eatWs1 cs
  let r2 ← eatPre "at".data r1
  let r3 ← eatWs1 r2
  let r4 ← eatHourColon r3
  let r5 ← eatTwoDigits r4
  pure (optAmPm (optColonSec r5))

/-- `re.sub(pat, "", s)` driven by a matcher that returns the remainder after
a match: scan left to right, drop each matched span, continue after it.
Structural recursion on a fuel that starts at the list length (every step
consumes at least one character, so the fuel never runs out). -/
def subAllGo (m : List Char → Option (List Char)) : Nat → List Char → List Char
  | _, [] => []
  | 0, cs => cs
  | fuel + 1, c :: rest =>
    match m (c :: rest) with
    | some r =>
      if r.length < (c :: rest).length then subAllGo m fuel r
      else c :: subAllGo m fuel rest
    | none => c :: subAllGo m fuel rest

def subAllAux (m : List Char → Option (List Char)) (cs : List Char) : List Char :=
  subAllGo m cs.length cs

/-- `.*$` without DOTALL over the text after the separator: every character of
the match target except a possible final newline must be a non-newline. -/
def sepTailOk (rest : List Char) : Bool :=
  rest.dropLast.all fun x => x ≠ '\n'

/-- What survives after the separator match: only a final newline, which `$`
matches before and `.*` cannot consume. -/
def sepKeep (rest : List Char) : List Char :=
  if rest.getLast? = some '\n' then ['\n'] else []

/-- `re.sub(r"\s*[\|·].*$", "", s)`: cut from the first pipe or middle dot
(and the whitespace run immediately before it) to the end of the line. -/
def removeSepGo (acc : List Char) : List Char → List Char
  | [] => acc.reverse
  | c :: rest =>
    if (c = '|' || c = '·') && sepTailOk rest then
      (acc.dropWhile isWsC).reverse ++ sepKeep rest
    else removeSepGo (c :: acc) rest

/-- `re.sub(r"\s+ago\s*$", "", s)`: strip a trailing standalone `ago`. -/
def removeAgoGo : List Char → List Char
  | [] => []
  | c :: rest =>
    if isWsC c &&
        (let r := rest.dropWhile isWsC
         startsWithL "ago".data r && (r.drop 3).all isWsC) then
      []
    else c :: removeAgoGo rest

/-- `re.sub(rf'\b{abbrev}\b', full, s)`: whole-word replacement of one
abbreviation.  `prevW` records whether the previous character of the scanned
text is a word character (for the leading `\b`). -/
def subWordGo (k : Char) (keyTail rep : List Char) : Nat → Bool → List Char → List Char
  | _, _, [] => []
  | 0, _, cs => cs
  | fuel + 1, prevW, c :: rest =>
    if !prevW && c = k && startsWithL keyTail rest && boundaryOk (rest.drop keyTail.length) then
      rep ++ subWordGo k keyTail rep fuel true (rest.drop keyTail.length)
    else c :: subWordGo k keyTail rep fuel (isWordC c) rest

def subWord (key rep : String) (cs : List Char) : List Char :=
  match key.data with
  | [] => cs
  | k :: kt => subWordGo k kt rep.data cs.length false cs

/-- The `month_mappings` table, in source (dict insertion) order. -/
def month_mappings : List (String × String) :=
  [("jan", "january"), ("feb", "february"), ("mar", "march"), ("apr", "april"),
   ("may", "may"), ("jun", "june"), ("jul", "july"), ("aug", "august"),
   ("sep", "september"), ("sept", "september"), ("oct", "october"),
   ("nov", "november"), ("dec", "december")]

/-- The sequential month-abbreviation substitution loop. -/
def applyMonthSubs (cs : List Char) : List Char :=
  month_mappings.foldl (fun acc p => subWord p.1 p.2 acc) cs

/-- The whole cleanup pipeline producing `ts_cleaned` from `ts_lower`. -/
def cleanupTs (tsLower : List Char) : List Char :=
  applyMonthSubs
    (trimWs (removeAgoGo
      (trimWs (removeSepGo []
        (trimWs (subAllAux matchAtTimeRest tsLower))))))

/-! ## `datetime.strptime` embedding (CPython `_strptime.TimeRE` semantics) -/

/-- Format-string tokens: `%d`, `%m`, `%Y`, `%B`, `%b`, format whitespace
(matching `\s+`), and literal characters. -/
inductive FTok where
  | fD : FTok
  | fM : FTok
  | fY : FTok
  | fB : FTok
  | fb : FTok
  | fWs : FTok
  | fLit : Char → FTok
deriving DecidableEq, Repr

/-- Fields collected while running a format. -/
structure StrpAcc where
  yv : Option Nat
  mv : Option Nat
  dv : Option Nat
deriving DecidableEq, Repr

/-- `%d` as the regex `(3[01]|[12]\d|0[1-9]|[1-9])`, alternatives tried in
order (two-digit forms first). -/
def parseDayTok : List Char → Option (Nat × List Char)
  | c1 :: c2 :: rest =>
    if c1 = '3' && (c2 = '0' || c2 = '1') then
      some (charVal c1 * 10 + charVal c2, rest)
    else if (c1 = '1' || c1 = '2') && c2.isDigit then
      some (charVal c1 * 10 + charVal c2, rest)
    else if c1 = '0' && ('1' ≤ c2 && c2 ≤ '9') then
      some (charVal c2, rest)
    else if c1.isDigit && c1 ≠ '0' then
      some (charVal c1, c2 :: rest)
    else none
  | [c1] => if c1.isDigit && c1 ≠ '0' then some (charVal c1, []) else none
  | [] => none

/-- `%m` as the regex `(1[0-2]|0[1-9]|[1-9])`. -/
def parseMonTok : List Char → Option (Nat × List Char)
  | c1 :: c2 :: rest =>
    if c1 = '1' && (c2 = '0' || c2 = '1' || c2 = '2') then
      some (10 + charVal c2, rest)
    else if c1 = '0' && ('1' ≤ c2 && c2 ≤ '9') then
      some (charVal c2, rest)
    else if c1.isDigit && c1 ≠ '0' then
      some (charVal c1, c2 :: rest)
    else none
  | [c1] => if c1.isDigit && c1 ≠ '0' then some (charVal c1, []) else none
  | [] => none

/-- `%Y` as the regex `(\d\d\d\d)`: exactly four digits. -/
def parseY4 : List Char → Option (Nat × List Char)
  | a :: b :: c :: d :: r =>
    if a.isDigit && b.isDigit && c.isDigit && d.isDigit then
      some (((charVal a * 10 + charVal b) * 10 + charVal c) * 10 + charVal d, r)
    else none
  | _ => none

/-- Full month names with their numbers, sorted longest-first as CPython's
`TimeRE.__seqToRE` sorts its alternation (the empty-string alternative always
leads to month 0 and hence a `ValueError`, i.e. format failure, so it is
equivalent to omit it). -/
def fullMonthNames : List (String × Nat) :=
  [("september", 9), ("february", 2), ("november", 11), ("december", 12),
   ("january", 1), ("october", 10), ("august", 8), ("april", 4),
   ("march", 3), ("june", 6), ("july", 7), ("may", 5)]

/-- Abbreviated month names (`calendar.month_abbr`, lowercased); all are
three letters, so sorting by length is the identity. -/
def abbrevMonthNames : List (String × Nat) :=
  [("jan", 1), ("feb", 2), ("mar", 3), ("apr", 4), ("may", 5), ("jun", 6),
   ("jul", 7), ("aug", 8), ("sep", 9), ("oct", 10), ("nov", 11), ("dec", 12)]

/-- Month-name alternation: first name in the list that is a literal prefix. -/
def parseMonthName (names : List (String × Nat)) (cs : List Char) : Option (Nat × List Char) :=
  match names with
  | [] => none
  | (nm, k) :: rest =>
    if startsWithL nm.data cs then some (k, cs.drop nm.data.length)
    else parseMonthName rest cs

/-- Run one format token. -/
def runTok (t : FTok) (acc : StrpAcc) (cs : List Char) : Option (StrpAcc × List Char) :=
  match t with
  | .fD => (parseDayTok cs).map fun p => ({ acc with dv := some p.1 }, p.2)
  | .fM => (parseMonTok cs).map fun p => ({ acc with mv := some p.1 }, p.2)
  | .fY => (parseY4 cs).map fun p => ({ acc with yv := some p.1 }, p.2)
  | .fB => (parseMonthName fullMonthNames cs).map fun p => ({ acc with mv := some p.1 }, p.2)
  | .fb => (parseMonthName abbrevMonthNames cs).map fun p => ({ acc with mv := some p.1 }, p.2)
  | .fWs => (eatWs1 cs).map fun r => (acc, r)
  | .fLit c =>
    match cs with
    | c' :: r => if c' = c then some (acc, r) else none
    | [] => none

/-- Run a token list left to right. -/
def runToks : List FTok → StrpAcc → List Char → Option (StrpAcc × List Char)
  | [], acc, cs => some (acc, cs)
  | t :: ts, acc, cs =>
    match runTok t acc cs with
    | some (acc', cs') => runToks ts acc' cs'
    | none => none

/-- `datetime.strptime(s, fmt)` restricted to the date fields used here:
the whole string must be consumed and all three fields must be set. -/
def strptimeDate (toks : List FTok) (cs : List Char) : Option (Nat × Nat × Nat) :=
  match runToks toks ⟨none, none, none⟩ cs with
  | some (⟨some y, some m, some d⟩, []) => some (y, m, d)
  | _ => none

/-- Decimal digits of a natural number, modelling the f-string `f"{now.year}"`. -/
def digitChar (n : Nat) : Char :=
  match n with
  | 0 => '0' | 1 => '1' | 2 => '2' | 3 => '3' | 4 => '4'
  | 5 => '5' | 6 => '6' | 7 => '7' | 8 => '8' | 9 => '9'
  | _ => '*'

def decimalDigitsF : Nat → Nat → List Char
  | 0, n => [digitChar n]
  | fuel + 1, n =>
    if n < 10 then [digitChar n]
    else decimalDigitsF fuel (n / 10) ++ [digitChar (n % 10)]

def decimalDigits (n : Nat) : List Char :=
  decimalDigitsF n n

/-- `datetime.strptime(f"{ts_cleaned} {now.year}", f"{fmt_str} %Y")`:
the without-year formats with the reference year appended. -/
def strptimeNoYear (toks : List FTok) (cleaned : List Char) (y : Nat) :
    Option (Nat × Nat × Nat) :=
  strptimeDate (toks ++ [FTok.fWs, FTok.fY]) (cleaned ++ ' ' :: decimalDigits y)

/-! ## The format tables (`date_formats_with_year`, `date_formats_no_year`) -/

def fmt_dBY : List FTok := [.fD, .fWs, .fB, .fWs, .fY]          -- "%d %B %Y"
def fmt_BdcY : List FTok := [.fB, .fWs, .fD, .fLit ',', .fWs, .fY] -- "%B %d, %Y"
def fmt_bdcY : List FTok := [.fb, .fWs, .fD, .fLit ',', .fWs, .fY] -- "%b %d, %Y"
def fmt_dbY : List FTok := [.fD, .fWs, .fb, .fWs, .fY]          -- "%d %b %Y"
def fmt_Ymd : List FTok := [.fY, .fLit '-', .fM, .fLit '-', .fD] -- "%Y-%m-%d"
def fmt_mdY : List FTok := [.fM, .fLit '/', .fD, .fLit '/', .fY] -- "%m/%d/%Y"
def fmt_dmY : List FTok := [.fD, .fLit '/', .fM, .fLit '/', .fY] -- "%d/%m/%Y"
def fmt_Ymd2 : List FTok := [.fY, .fLit '/', .fM, .fLit '/', .fD] -- "%Y/%m/%d"
def fmt_BdY : List FTok := [.fB, .fWs, .fD, .fWs, .fY]          -- "%B %d %Y"
def fmt_dBY2 : List FTok := [.fD, .fLit '-', .fB, .fLit '-', .fY] -- "%d-%B-%Y"
def fmt_dbY2 : List FTok := [.fD, .fLit '-', .fb, .fLit '-', .fY] -- "%d-%b-%Y"

/-- The with-year table, in declared order, including the duplicated
`"%B %d, %Y"` entry of the source. -/
def date_formats_with_year : List (List FTok) :=
  [fmt_dBY, fmt_BdcY, fmt_bdcY, fmt_dbY, fmt_Ymd, fmt_mdY, fmt_dmY,
   fmt_Ymd2, fmt_BdY, fmt_dBY2, fmt_dbY2, fmt_BdcY]

def fmt_dB : List FTok := [.fD, .fWs, .fB]      -- "%d %B"
def fmt_Bd : List FTok := [.fB, .fWs, .fD]      -- "%B %d"
def fmt_db : List FTok := [.fD, .fWs, .fb]      -- "%d %b"
def fmt_bd : List FTok := [.fb, .fWs, .fD]      -- "%b %d"
def fmt_md : List FTok := [.fM, .fLit '/', .fD] -- "%m/%d"
def fmt_dm : List FTok := [.fD, .fLit '/', .fM] -- "%d/%m"
def fmt_dB2 : List FTok := [.fD, .fLit '-', .fB] -- "%d-%B"
def fmt_db2 : List FTok := [.fD, .fLit '-', .fb] -- "%d-%b"

/-- The without-year table, in declared order. -/
def date_formats_no_year : List (List FTok) :=
  [fmt_dB, fmt_Bd, fmt_db, fmt_bd, fmt_md, fmt_dm, fmt_dB2, fmt_db2]

/-! ## Stages 7, 8, 10: the date-parsing loops -/

/-- The with-year loop: first format that parses (including `datetime`
validation; a `ValueError` falls through to the next format) wins, and the
result is `max(0, (now - parsed_dt).days)`. -/
def tryWithYearFmts : List (List FTok) → List Char → Date → Option Int
  | [], _, _ => none
  | f :: fs, cs, now =>
    match strptimeDate f cs with
    | some (y, m, d) =>
      if validDate y m d then some (max 0 (diffDays now (y, m, d)))
      else tryWithYearFmts fs cs now
    | none => tryWithYearFmts fs cs now

/-- The without-year loop: parse with the reference year appended; when the
candidate is strictly after the reference date, rebuild it with
`now.year - 1` (a `ValueError` there also falls through to the next format);
result is `max(0, (now - parsed_dt).days)`. -/
def tryNoYearFmts : List (List FTok) → List Char → Date → Option Int
  | [], _, _ => none
  | f :: fs, cs, now =>
    match strptimeNoYear f cs now.year with
    | some (y, m, d) =>
      if validDate y m d then
        if dateAfter (y, m, d) now then
          if validDate (now.year - 1) m d then
            some (max 0 (diffDays now (now.year - 1, m, d)))
          else tryNoYearFmts fs cs now
        else some (max 0 (diffDays now (y, m, d)))
      else tryNoYearFmts fs cs now
    | none => tryNoYearFmts fs cs now

/-- Association-list lookup in `month_mappings` for the fallback stage. -/
def lookupMonth : List (String × String) → List Char → Option (List Char)
  | [], _ => none
  | (k, v) :: rest, cs => if k.data = cs then some v.data else lookupMonth rest cs

/-- The fallback regex `(\d{1,2})\s+([a-z]+)(?:\s+(\d{4}))?` at the current
position: returns (day digits, month word, optional year digits). -/
def matchFallbackAt (cs : List Char) : Option (List Char × List Char × Option (List Char)) :=
  match cs with
  | c1 :: rest1 =>
    if c1.isDigit then
      match rest1 with
      | c2 :: rest2 =>
        if c2.isDigit then matchFallbackTail [c1, c2] rest2
        else matchFallbackTail [c1] rest1
      | [] => none
    else none
  | [] => none
where
  /-- After the day digits: `\s+([a-z]+)(?:\s+(\d{4}))?`. -/
  matchFallbackTail (ds : List Char) (cs : List Char) : Option (List Char × List Char × Option (List Char)) :=
    match eatWs1 cs with
    | none => none
    | some r1 =>
      match r1.span (fun c => 'a' ≤ c && c ≤ 'z') with
      | ([], _) => none
      | (w, r2) =>
        match eatWs1 r2 with
        | some r3 =>
          match r3 with
          | a :: b :: c :: d :: _ =>
            if a.isDigit && b.isDigit && c.isDigit && d.isDigit then
              some (ds, w, some [a, b, c, d])
            else some (ds, w, none)
          | _ => some (ds, w, none)
        | none => some (ds, w, none)

/-- `"%d %B %Y"` used by the fallback stage. -/
def fmt_fallback : List FTok := [.fD, .fWs, .fB, .fWs, .fY]

/-- Stage 10 (lines 203-231): loose fallback extraction over `ts_cleaned`,
month alias normalization, strptime of the reconstructed string, the same
year-inference rule, `max(0, days_diff)`; any `ValueError` yields `None`. -/
def fallbackExtract (cleaned : List Char) (now : Date) : Option Int :=
  match searchPos matchFallbackAt cleaned with
  | none => none
  | some (dayS, monS, yearS?) =>
    let monS' := (lookupMonth month_mappings monS).getD monS
    match yearS? with
    | some ys =>
      match strptimeDate fmt_fallback (dayS ++ ' ' :: (monS' ++ ' ' :: ys)) with
      | some (y, m, d) =>
        if validDate y m d then some (max 0 (diffDays now (y, m, d))) else none
      | none => none
    | none =>
      match strptimeDate fmt_fallback
          (dayS ++ ' ' :: (monS' ++ ' ' :: decimalDigits now.year)) with
      | some (y, m, d) =>
        if validDate y m d then
          if dateAfter (y, m, d) now then
            if validDate (now.year - 1) m d then
              some (max 0 (diffDays now (now.year - 1, m, d)))
            else none
          else some (max 0 (diffDays now (y, m, d)))
        else none
      | none => none

/-! ## The full cascade (`TimestampParser.parse_timestamp_to_days`) -/

/-- The stage-9 loop over `special_patterns`, run on `ts_lower`: day, week
(times 7), month (times 30), year (times 365), first match wins. -/
def searchSpecialPats (tsLower : List Char) : Option Int :=
  match searchSpecial "day".data tsLower with
  | some n => some (n : Int)
  | none =>
    match searchSpecial "week".data tsLower with
    | some n => some ((n : Int) * 7)
    | none =>
      match searchSpecial "month".data tsLower with
      | some n => some ((n : Int) * 30)
      | none =>
        match searchSpecial "year".data tsLower with
        | some n => some ((n : Int) * 365)
        | none => none

/-- `str(timestamp).lower().strip()`. -/
def normalizeTs (s : String) : List Char :=
  trimWs (s.data.map lowerC)

/-- The cascade from `ts_lower` on: the body of `parse_timestamp_to_days`
after the normalization line, translated stage by stage. -/
def parse_core (tsLower : List Char) (now : Date) : Option Int :=
  if tsLower.isEmpty then none
  else if containsAnyPhrase tsLower then some 0
  else if searchSeconds tsLower then some 0
  else if searchMinutes tsLower then some 0
  else if searchHours tsLower then some 0
  else if containsSub "yesterday".data tsLower then some 1
  else
    match searchDaysCap tsLower with
    | some n => some (n : Int)
    | none =>
      match searchWeeksCap tsLower with
      | some n => some ((n : Int) * 7)
      | none =>
        let tsCleaned := cleanupTs tsLower
        match tryWithYearFmts date_formats_with_year tsCleaned now with
        | some r => some r
        | none =>
          match tryNoYearFmts date_formats_no_year tsCleaned now with
          | some r => some r
          | none =>
            match searchSpecialPats tsLower with
            | some r => some r
            | none => fallbackExtract tsCleaned now

/-- `parse_timestamp_to_days` as a value function: `int` day count or `None`
(the single unparseable outcome); total by construction, so no exception can
escape. -/
def parse_timestamp (timestamp : String) (now : Date) : Option Int :=
  parse_core (normalizeTs timestamp) now

/-! ## The verbose variant: same cascade, also collecting the `self.log`
messages that `verbose=True` would print -/

/-- `self.log`: emits the message only when verbose mode is on. -/
def logIf (v : Bool) (msg : String) : List String :=
  if v then ["[TimestampParser] " ++ msg] else []

/-- The cascade with diagnostics: returns the value and the trace of log
messages (the model of what is printed to stdout). -/
def parse_core_logged (v : Bool) (tsLower : List Char) (now : Date) :
    Option Int × List String :=
  let t0 := logIf v ("Parsing timestamp: '" ++ String.mk tsLower ++ "'")
  if tsLower.isEmpty then (none, t0)
  else if containsAnyPhrase tsLower then
    (some 0, t0 ++ logIf v "Matched immediate timestamp - returning 0 days")
  else if searchSeconds tsLower then
    (some 0, t0 ++ logIf v "Matched time unit pattern - returning 0 days")
  else if searchMinutes tsLower then
    (some 0, t0 ++ logIf v "Matched time unit pattern - returning 0 days")
  else if searchHours tsLower then
    (some 0, t0 ++ logIf v "Matched time unit pattern - returning 0 days")
  else if containsSub "yesterday".data tsLower then
    (some 1, t0 ++ logIf v "Matched 'yesterday' - returning 1 day")
  else
    match searchDaysCap tsLower with
    | some n => (some (n : Int), t0 ++ logIf v "Matched relative pattern")
    | none =>
      match searchWeeksCap tsLower with
      | some n => (some ((n : Int) * 7), t0 ++ logIf v "Matched relative pattern")
      | none =>
        let tsCleaned := cleanupTs tsLower
        let t1 := t0 ++ logIf v ("Cleaned timestamp: '" ++ String.mk tsCleaned ++ "'")
        match tryWithYearFmts date_formats_with_year tsCleaned now with
        | some r => (some r, t1 ++ logIf v "Successfully parsed with year format")
        | none =>
          match tryNoYearFmts date_formats_no_year tsCleaned now with
          | some r => (some r, t1 ++ logIf v "Successfully parsed with year assumed")
          | none =>
            match searchSpecialPats tsLower with
            | some r => (some r, t1 ++ logIf v "Matched special pattern")
            | none =>
              match fallbackExtract tsCleaned now with
              | some r => (some r, t1 ++ logIf v "Matched fallback pattern")
              | none => (none, t1 ++ logIf v "Failed to parse timestamp")

/-- `parse_timestamp_to_days` with its `verbose` flag: the returned pair is
(value, diagnostic trace). -/
def parse_timestamp_to_days (verbose : Bool) (timestamp : String) (now : Date) :
    Option Int × List String :=
  parse_core_logged verbose (normalizeTs timestamp) now

/-- `TimestampParser.parse_multiple_timestamps`: the loop appending
`(timestamp, days_ago)` pairs in order. -/
def parse_multiple_timestamps (timestamps : List String) (now : Date) :
    List (String × Option Int) :=
  match timestamps with
  | [] => []
  | t :: ts => (t, parse_timestamp t now) :: parse_multiple_timestamps ts now

/-! ## Calendar lemmas: `rataDie` is strictly monotone on valid dates -/

lemma validDate_iff {y m d : Nat} :
    validDate y m d = true ↔
      1 ≤ y ∧ y ≤ 9999 ∧ 1 ≤ m ∧ m ≤ 12 ∧ 1 ≤ d ∧ d ≤ daysInMonth y m := by
  simp [validDate, and_assoc]

lemma daysBeforeYear_succ (y : Nat) (hy : 1 ≤ y) :
    daysBeforeYear (y + 1) = daysBeforeYear y + 365 + (if isLeap y then 1 else 0) := by
  obtain ⟨n, rfl⟩ : ∃ n, y = n + 1 := ⟨y - 1, by omega⟩
  simp only [daysBeforeYear, Nat.add_sub_cancel]
  have h4 := Nat.succ_div n 4
  have h100 := Nat.succ_div n 100
  have h400 := Nat.succ_div n 400
  have d4 : (4 ∣ n + 1) ↔ (n + 1) % 4 = 0 := Nat.dvd_iff_mod_eq_zero
  have d100 : (100 ∣ n + 1) ↔ (n + 1) % 100 = 0 := Nat.dvd_iff_mod_eq_zero
  have d400 : (400 ∣ n + 1) ↔ (n + 1) % 400 = 0 := Nat.dvd_iff_mod_eq_zero
  have m100 : (n + 1) % 100 = 0 → (n + 1) % 4 = 0 := by omega
  have m400 : (n + 1) % 400 = 0 → (n + 1) % 100 = 0 := by omega
  have hle1 : n / 100 ≤ n / 4 :=
    Nat.div_le_div_left (by norm_num) (by norm_num)
  have hle2 : (n + 1) / 100 ≤ (n + 1) / 4 :=
    Nat.div_le_div_left (by norm_num) (by norm_num)
  simp only [isLeap]
  by_cases q4 : (n + 1) % 4 = 0 <;> by_cases q100 : (n + 1) % 100 = 0 <;>
    by_cases q400 : (n + 1) % 400 = 0 <;>
    simp [q4, q100, q400, d4, d100, d400] at h4 h100 h400 ⊢ <;> omega

lemma daysBeforeYear_le_succ (y : Nat) : daysBeforeYear y ≤ daysBeforeYear (y + 1) := by
  rcases Nat.eq_zero_or_pos y with h | h
  · subst h; simp [daysBeforeYear]
  · rw [daysBeforeYear_succ y h]; omega

lemma daysBeforeYear_mono {y1 y2 : Nat} (h : y1 ≤ y2) :
    daysBeforeYear y1 ≤ daysBeforeYear y2 := by
  induction y2 with
  | zero => simp [Nat.le_zero.mp h]
  | succ k ih =>
    rcases Nat.lt_or_ge y1 (k + 1) with hk | hk
    · exact le_trans (ih (by omega)) (daysBeforeYear_le_succ k)
    · have : y1 = k + 1 := by omega
      subst this; rfl

lemma doyL_month_step : ∀ (L : Bool), ∀ m1 < 13, ∀ m2 < 13, 1 ≤ m1 → m1 < m2 →
    monthOff m1 + (if 3 ≤ m1 && L then 1 else 0) + daysInMonthL L m1 <
      monthOff m2 + (if 3 ≤ m2 && L then 1 else 0) + 1 := by decide

lemma doyL_total_bound : ∀ (L : Bool), ∀ m < 13, 1 ≤ m →
    monthOff m + (if 3 ≤ m && L then 1 else 0) + daysInMonthL L m ≤
      365 + (if L then 1 else 0) := by decide

lemma doyL_mono (L : Bool) {m1 d1 m2 d2 : Nat}
    (hm1 : 1 ≤ m1) (hm1' : m1 ≤ 12) (hd1 : d1 ≤ daysInMonthL L m1)
    (hm2 : m2 ≤ 12) (hd2 : 1 ≤ d2)
    (hlt : m1 < m2 ∨ (m1 = m2 ∧ d1 < d2)) :
    doyL L m1 d1 < doyL L m2 d2 := by
  rcases hlt with hlt | ⟨rfl, hdd⟩
  · have := doyL_month_step L m1 (by omega) m2 (by omega) hm1 hlt
    simp only [doyL]
    omega
  · simp only [doyL]; omega

lemma doyL_le (L : Bool) {m d : Nat} (hm1 : 1 ≤ m) (hm2 : m ≤ 12)
    (hd : d ≤ daysInMonthL L m) :
    doyL L m d ≤ 365 + (if L then 1 else 0) := by
  have := doyL_total_bound L m (by omega) hm1
  simp only [doyL]
  omega

lemma doyL_pos (L : Bool) (m : Nat) {d : Nat} (hd : 1 ≤ d) : 1 ≤ doyL L m d := by
  simp only [doyL]; omega

/-- Strict monotonicity of the day number in lexicographic date order, on
valid dates. -/
lemma rataDie_lt {y1 m1 d1 y2 m2 d2 : Nat}
    (hv1 : validDate y1 m1 d1 = true) (hv2 : validDate y2 m2 d2 = true)
    (hlex : y1 < y2 ∨ (y1 = y2 ∧ (m1 < m2 ∨ (m1 = m2 ∧ d1 < d2)))) :
    rataDie y1 m1 d1 < rataDie y2 m2 d2 := by
  rw [validDate_iff] at hv1 hv2
  obtain ⟨hy1a, hy1b, hm1a, hm1b, hd1a, hd1b⟩ := hv1
  obtain ⟨hy2a, hy2b, hm2a, hm2b, hd2a, hd2b⟩ := hv2
  rcases hlex with hy | ⟨rfl, hmd⟩
  · have h1 : rataDie y1 m1 d1 < daysBeforeYear (y1 + 1) + 1 := by
      have hb := doyL_le (isLeap y1) hm1a hm1b hd1b
      have hs := daysBeforeYear_succ y1 hy1a
      simp only [rataDie]
      omega
    have h2 : daysBeforeYear (y1 + 1) + 1 ≤ rataDie y2 m2 d2 := by
      have hmono := daysBeforeYear_mono (show y1 + 1 ≤ y2 by omega)
      have hp := doyL_pos (isLeap y2) m2 hd2a
      simp only [rataDie]
      omega
    omega
  · have := doyL_mono (isLeap y1) hm1a hm1b hd1b hm2b hd2a hmd
    simp only [rataDie]
    omega

/-- Weak monotonicity. -/
lemma rataDie_le {y1 m1 d1 y2 m2 d2 : Nat}
    (hv1 : validDate y1 m1 d1 = true) (hv2 : validDate y2 m2 d2 = true)
    (hlex : y1 < y2 ∨ (y1 = y2 ∧ (m1 < m2 ∨ (m1 = m2 ∧ d1 ≤ d2)))) :
    rataDie y1 m1 d1 ≤ rataDie y2 m2 d2 := by
  rcases hlex with hy | ⟨rfl, hmd⟩
  · exact le_of_lt (rataDie_lt hv1 hv2 (Or.inl hy))
  · rcases hmd with hm | ⟨rfl, hd⟩
    · exact le_of_lt (rataDie_lt hv1 hv2 (Or.inr ⟨rfl, Or.inl hm⟩))
    · rcases Nat.lt_or_ge d1 d2 with h | h
      · exact le_of_lt (rataDie_lt hv1 hv2 (Or.inr ⟨rfl, Or.inr ⟨rfl, h⟩⟩))
      · have : d1 = d2 := by omega
        subst this; exact le_refl _

/-- A candidate strictly after a valid reference has negative `diffDays`. -/
lemma diffDays_neg_of_after {now : Date} {y m d : Nat}
    (hvnow : validDate now.year now.month now.day = true)
    (hv : validDate y m d = true)
    (hafter : dateAfter (y, m, d) now = true) :
    diffDays now (y, m, d) < 0 := by
  simp only [dateAfter, decide_eq_true_eq] at hafter
  have := rataDie_lt hvnow hv hafter
  simp only [diffDays]
  omega

/-- A candidate not after a valid reference has nonnegative `diffDays`. -/
lemma diffDays_nonneg_of_not_after {now : Date} {y m d : Nat}
    (hvnow : validDate now.year now.month now.day = true)
    (hv : validDate y m d = true)
    (hafter : dateAfter (y, m, d) now = false) :
    0 ≤ diffDays now (y, m, d) := by
  simp only [dateAfter, decide_eq_false_iff_not] at hafter
  push_neg at hafter
  have hle : rataDie y m d ≤ rataDie now.year now.month now.day := by
    rcases Nat.lt_trichotomy y now.year with h | h | h
    · exact rataDie_le hv hvnow (Or.inl h)
    · subst h
      rcases Nat.lt_trichotomy m now.month with h2 | h2 | h2
      · exact rataDie_le hv hvnow (Or.inr ⟨rfl, Or.inl h2⟩)
      · subst h2
        have hd := (hafter.2 rfl).2 rfl
        exact rataDie_le hv hvnow (Or.inr ⟨rfl, Or.inr ⟨rfl, hd⟩⟩)
      · exact absurd ((hafter.2 rfl).1) (by omega)
    · exact absurd hafter.1 (by omega)
  simp only [diffDays]
  omega

/-! ## Stage-level helper lemmas -/

lemma tryWithYearFmts_nonneg :
    ∀ (fs : List (List FTok)) (cs : List Char) (now : Date) (r : Int),
      tryWithYearFmts fs cs now = some r → 0 ≤ r := by
  intro fs
  induction fs with
  | nil => intro cs now r h; simp [tryWithYearFmts] at h
  | cons f fs ih =>
    intro cs now r h
    rw [tryWithYearFmts] at h
    split at h
    · split_ifs at h
      · injection h with h'; subst h'; exact le_max_left _ _
      · exact ih _ _ _ h
    · exact ih _ _ _ h

lemma tryNoYearFmts_nonneg :
    ∀ (fs : List (List FTok)) (cs : List Char) (now : Date) (r : Int),
      tryNoYearFmts fs cs now = some r → 0 ≤ r := by
  intro fs
  induction fs with
  | nil => intro cs now r h; simp [tryNoYearFmts] at h
  | cons f fs ih =>
    intro cs now r h
    rw [tryNoYearFmts] at h
    split at h
    · split_ifs at h
      all_goals first
        | (injection h with h'; subst h'; exact le_max_left _ _)
        | exact ih _ _ _ h
    · exact ih _ _ _ h

lemma fallbackExtract_nonneg (cs : List Char) (now : Date) (r : Int)
    (h : fallbackExtract cs now = some r) : 0 ≤ r := by
  rw [fallbackExtract] at h
  dsimp only at h
  repeat' split at h
  all_goals first
    | exact Option.noConfusion h
    | (injection h with h'; subst h'; exact le_max_left _ _)

lemma searchSpecialPats_nonneg (cs : List Char) (r : Int)
    (h : searchSpecialPats cs = some r) : 0 ≤ r := by
  rw [searchSpecialPats] at h
  repeat' split at h
  all_goals first
    | exact Option.noConfusion h
    | (injection h with h'; subst h'; positivity)

lemma parse_core_nonneg (tl : List Char) (now : Date) (r : Int)
    (h : parse_core tl now = some r) : 0 ≤ r := by
  rw [parse_core] at h
  dsimp only at h
  split_ifs at h
  all_goals try (injection h with h'; omega)
  cases hd : searchDaysCap tl with
  | some n => rw [hd] at h; dsimp only at h; injection h with h'; omega
  | none =>
    rw [hd] at h; dsimp only at h
    cases hw : searchWeeksCap tl with
    | some n => rw [hw] at h; dsimp only at h; injection h with h'; omega
    | none =>
      rw [hw] at h; dsimp only at h
      cases hy : tryWithYearFmts date_formats_with_year (cleanupTs tl) now with
      | some r2 =>
        rw [hy] at h; dsimp only at h; injection h with h'
        subst h'; exact tryWithYearFmts_nonneg _ _ _ _ hy
      | none =>
        rw [hy] at h; dsimp only at h
        cases hn : tryNoYearFmts date_formats_no_year (cleanupTs tl) now with
        | some r2 =>
          rw [hn] at h; dsimp only at h; injection h with h'
          subst h'; exact tryNoYearFmts_nonneg _ _ _ _ hn
        | none =>
          rw [hn] at h; dsimp only at h
          cases hs : searchSpecialPats tl with
          | some r2 =>
            rw [hs] at h; dsimp only at h; injection h with h'
            subst h'; exact searchSpecialPats_nonneg _ _ hs
          | none =>
            rw [hs] at h; dsimp only at h
            exact fallbackExtract_nonneg _ _ _ h

/-! ## Claim theorems -/

/-- Claim C2: with-year resolution.  The with-year templates are tried in
their fixed declared order: the first template that structurally matches (and
passes `datetime` validation) wins and yields the clamped day difference to
the reference; a non-matching (or invalid) head template defers to the rest
of the list.  Concretely, with reference 2024-06-15, resolving
`"27 March 2017"` returns 2637. -/
theorem claim_C2_with_year :
    (∀ (f : List FTok) (fs : List (List FTok)) (cs : List Char) (now : Date) (y m d : Nat),
      strptimeDate f cs = some (y, m, d) → validDate y m d = true →
      tryWithYearFmts (f :: fs) cs now = some (max 0 (diffDays now (y, m, d)))) ∧
    (∀ (f : List FTok) (fs : List (List FTok)) (cs : List Char) (now : Date),
      strptimeDate f cs = none →
      tryWithYearFmts (f :: fs) cs now = tryWithYearFmts fs cs now) ∧
    (∀ (f : List FTok) (fs : List (List FTok)) (cs : List Char) (now : Date) (y m d : Nat),
      strptimeDate f cs = some (y, m, d) → validDate y m d = false →
      tryWithYearFmts (f :: fs) cs now = tryWithYearFmts fs cs now) ∧
    parse_timestamp "27 March 2017" ⟨2024, 6, 15⟩ = some 2637 := by
  refine ⟨?_, ?_, ?_, by decide⟩
  · intro f fs cs now y m d hp hv
    rw [tryWithYearFmts, hp]
    dsimp only
    rw [if_pos hv]
  · intro f fs cs now hp
    rw [tryWithYearFmts, hp]
  · intro f fs cs now y m d hp hv
    rw [tryWithYearFmts, hp]
    dsimp only
    rw [if_neg (by simp [hv])]

/-- Witness for C2 at concrete inputs: the first template of the with-year
table matches `"27 march 2017"`, an unmatched template (here over the cleaned
string `"2017-03-27"`) defers to the tail, and an invalid date
(`"31 april 2020"`) also defers. -/
theorem claim_C2_witness :
    (strptimeDate fmt_dBY "27 march 2017".data = some (2017, 3, 27) ∧
      validDate 2017 3 27 = true ∧
      tryWithYearFmts (fmt_dBY :: []) "27 march 2017".data ⟨2024, 6, 15⟩ =
        some (max 0 (diffDays ⟨2024, 6, 15⟩ (2017, 3, 27)))) ∧
    (strptimeDate fmt_dBY "2017-03-27".data = none ∧
      tryWithYearFmts (fmt_dBY :: [fmt_Ymd]) "2017-03-27".data ⟨2024, 6, 15⟩ =
        tryWithYearFmts [fmt_Ymd] "2017-03-27".data ⟨2024, 6, 15⟩) ∧
    (strptimeDate fmt_dBY "31 april 2020".data = some (2020, 4, 31) ∧
      validDate 2020 4 31 = false ∧
      tryWithYearFmts (fmt_dBY :: []) "31 april 2020".data ⟨2024, 6, 15⟩ =
        tryWithYearFmts [] "31 april 2020".data ⟨2024, 6, 15⟩) :=
  ⟨⟨by decide, by decide,
     claim_C2_with_year.1 fmt_dBY [] "27 march 2017".data ⟨2024, 6, 15⟩ 2017 3 27
       (by decide) (by decide)⟩,
   ⟨by decide,
     claim_C2_with_year.2.1 fmt_dBY [fmt_Ymd] "2017-03-27".data ⟨2024, 6, 15⟩ (by decide)⟩,
   ⟨by decide, by decide,
     claim_C2_with_year.2.2.1 fmt_dBY [] "31 april 2020".data ⟨2024, 6, 15⟩ 2020 4 31
       (by decide) (by decide)⟩⟩

/-- Claim C4: totality and failure semantics.  `parse_timestamp` is a total
Lean function (so no exception can escape); every call returns either an
integer day count or the single unparseable value `none`; the empty string
and arbitrary unrecognized text return `none` (unparseable), not `0`. -/
theorem claim_C4_totality :
    (∀ (s : String) (now : Date),
      parse_timestamp s now = none ∨ ∃ k : Int, parse_timestamp s now = some k) ∧
    (∀ now : Date, parse_timestamp "" now = none) ∧
    (∀ now : Date, parse_timestamp "completely invalid gibberish" now = none) := by
  refine ⟨?_, fun _ => rfl, fun _ => rfl⟩
  intro s now
  cases h : parse_timestamp s now with
  | none => exact Or.inl rfl
  | some k => exact Or.inr ⟨k, rfl⟩

/-- Claim C7: batch equals pointwise map.  `parse_multiple_timestamps`
returns the order-preserving list of `(input, parse_timestamp input now)`
pairs: it equals the pointwise map, has the same length as the input, and its
`i`-th element is exactly the pair for the `i`-th input. -/
theorem claim_C7_batch_map :
    ∀ (l : List String) (now : Date),
      parse_multiple_timestamps l now = l.map (fun t => (t, parse_timestamp t now)) ∧
      (parse_multiple_timestamps l now).length = l.length ∧
      ∀ i : Nat, (parse_multiple_timestamps l now)[i]? =
        (l[i]?).map (fun t => (t, parse_timestamp t now)) := by
  intro l now
  have hmap : parse_multiple_timestamps l now =
      l.map (fun t => (t, parse_timestamp t now)) := by
    induction l with
    | nil => rfl
    | cons t ts ih => rw [parse_multiple_timestamps, ih]; rfl
  refine ⟨hmap, by rw [hmap]; simp, ?_⟩
  intro i
  rw [hmap, List.getElem?_map]

/-- Claim C9 (implicit): the bare input `"now"` — or any input that
normalizes (trim + lowercase) to exactly `"now"` — is unparseable: the
immediate-phrase set only contains `" now"` with a leading space, which the
trimmed string `"now"` cannot contain, and every later stage fails on it. -/
theorem claim_C9_bare_now :
    (∀ now : Date, parse_timestamp "now" now = none) ∧
    (∀ (s : String) (now : Date), normalizeTs s = "now".data →
      parse_timestamp s now = none) := by
  refine ⟨fun _ => rfl, ?_⟩
  intro s now h
  rw [parse_timestamp, h]
  rfl

/-- Witness for C9: `"NOW "` normalizes to `"now"` and resolves to `none`. -/
theorem claim_C9_witness :
    normalizeTs "NOW " = "now".data ∧ parse_timestamp "NOW " ⟨2024, 5, 5⟩ = none :=
  ⟨by decide, claim_C9_bare_now.2 "NOW " ⟨2024, 5, 5⟩ (by decide)⟩

/-- Claim C3: non-negativity and clamping.  Every non-`none` result of
`parse_timestamp` is a nonnegative integer, and in the with-year and
loose-fallback date stages a parsed date strictly after a valid reference
yields exactly `0`.  (In the without-year stage a future candidate is
re-interpreted with the previous year and is then strictly before the
reference, so no negative value can arise there either; that is covered by
the first conjunct.) -/
theorem claim_C3_nonneg_clamp :
    (∀ (s : String) (now : Date) (r : Int), parse_timestamp s now = some r → 0 ≤ r) ∧
    (∀ (f : List FTok) (fs : List (List FTok)) (cs : List Char) (now : Date) (y m d : Nat),
      validDate now.year now.month now.day = true →
      strptimeDate f cs = some (y, m, d) → validDate y m d = true →
      dateAfter (y, m, d) now = true →
      tryWithYearFmts (f :: fs) cs now = some 0) ∧
    (∀ (cleaned : List Char) (now : Date) (dayS monS ys : List Char) (y m d : Nat),
      validDate now.year now.month now.day = true →
      searchPos matchFallbackAt cleaned = some (dayS, monS, some ys) →
      strptimeDate fmt_fallback
        (dayS ++ ' ' :: ((lookupMonth month_mappings monS).getD monS ++ ' ' :: ys)) =
        some (y, m, d) →
      validDate y m d = true →
      dateAfter (y, m, d) now = true →
      fallbackExtract cleaned now = some 0) := by
  refine ⟨?_, ?_, ?_⟩
  · intro s now r h
    exact parse_core_nonneg _ _ _ h
  · intro f fs cs now y m d hvn hp hv ha
    rw [tryWithYearFmts, hp]
    dsimp only
    rw [if_pos hv]
    have := diffDays_neg_of_after hvn hv ha
    congr 1
    omega
  · intro cleaned now dayS monS ys y m d hvn hs hp hv ha
    rw [fallbackExtract, hs]
    dsimp only
    rw [hp]
    dsimp only
    rw [if_pos hv]
    have := diffDays_neg_of_after hvn hv ha
    congr 1
    omega

/-- Witness for C3: the nonnegativity conjunct at `"3d"`, the with-year
clamp at `"27 march 2030"` against reference 2024-06-15, and the fallback
clamp at cleaned text `"seen 27 march 2030"`. -/
theorem claim_C3_witness :
    (parse_timestamp "3d" ⟨2024, 6, 15⟩ = some 3 ∧ (0 : Int) ≤ 3) ∧
    (validDate 2024 6 15 = true ∧
      strptimeDate fmt_dBY "27 march 2030".data = some (2030, 3, 27) ∧
      validDate 2030 3 27 = true ∧
      dateAfter (2030, 3, 27) ⟨2024, 6, 15⟩ = true ∧
      tryWithYearFmts (fmt_dBY :: []) "27 march 2030".data ⟨2024, 6, 15⟩ = some 0) ∧
    (searchPos matchFallbackAt "seen 27 march 2030".data =
        some ("27".data, "march".data, some "2030".data) ∧
      fallbackExtract "seen 27 march 2030".data ⟨2024, 6, 15⟩ = some 0) :=
  ⟨⟨by decide, claim_C3_nonneg_clamp.1 "3d" ⟨2024, 6, 15⟩ 3 (by decide)⟩,
   ⟨by decide, by decide, by decide, by decide,
     claim_C3_nonneg_clamp.2.1 fmt_dBY [] "27 march 2030".data ⟨2024, 6, 15⟩ 2030 3 27
       (by decide) (by decide) (by decide) (by decide)⟩,
   ⟨by decide,
     claim_C3_nonneg_clamp.2.2 "seen 27 march 2030".data ⟨2024, 6, 15⟩
       "27".data "march".data "2030".data 2030 3 27
       (by decide) (by decide) (by decide) (by decide) (by decide)⟩⟩

/-- Claim C5: sub-day collapse.  Whenever one of the three sub-day unit
regexes (seconds, minutes, hours, in any recognized spelling) matches the
normalized input, the result is `0` regardless of the captured integer;
`"500 hours ago"` resolves to `0` for every reference. -/
theorem claim_C5_subday_zero :
    (∀ (s : String) (now : Date),
      searchSeconds (normalizeTs s) = true ∨ searchMinutes (normalizeTs s) = true ∨
        searchHours (normalizeTs s) = true →
      parse_timestamp s now = some 0) ∧
    (∀ now : Date, parse_timestamp "500 hours ago" now = some 0) := by
  refine ⟨?_, fun _ => rfl⟩
  intro s now h
  rw [parse_timestamp, parse_core]
  dsimp only
  split_ifs with h1 h2 h3 h4 h5 h6
  · exfalso
    rw [List.isEmpty_iff] at h1
    rw [h1] at h
    rcases h with h | h | h <;> exact absurd h (by decide)
  · rfl
  · rfl
  · rfl
  · rfl
  · rcases h with h | h | h
    · exact absurd h h3
    · exact absurd h h4
    · exact absurd h h5
  · rcases h with h | h | h
    · exact absurd h h3
    · exact absurd h h4
    · exact absurd h h5

/-- Witness for C5: `"500 hours ago"` matches the hours regex and resolves
to `0`. -/
theorem claim_C5_witness :
    (searchSeconds (normalizeTs "500 hours ago") = true ∨
      searchMinutes (normalizeTs "500 hours ago") = true ∨
      searchHours (normalizeTs "500 hours ago") = true) ∧
    parse_timestamp "500 hours ago" ⟨2024, 6, 15⟩ = some 0 :=
  ⟨Or.inr (Or.inr (by decide)),
   claim_C5_subday_zero.1 "500 hours ago" ⟨2024, 6, 15⟩ (Or.inr (Or.inr (by decide)))⟩

/-- Claim C6: day/week shorthand.  When no earlier stage matches (no
immediate phrase, no sub-day unit, no `"yesterday"`), a day-unit match with
capture `n` yields `n`; the day pattern is attempted first, and only when it
finds no match does a week-unit match with capture `n` yield `n * 7`.
Concretely `"3d"` resolves to 3 and `"2w"` to 14. -/
theorem claim_C6_day_week :
    (∀ (s : String) (now : Date) (n : Nat),
      containsAnyPhrase (normalizeTs s) = false →
      searchSeconds (normalizeTs s) = false →
      searchMinutes (normalizeTs s) = false →
      searchHours (normalizeTs s) = false →
      containsSub "yesterday".data (normalizeTs s) = false →
      searchDaysCap (normalizeTs s) = some n →
      parse_timestamp s now = some (n : Int)) ∧
    (∀ (s : String) (now : Date) (n : Nat),
      containsAnyPhrase (normalizeTs s) = false →
      searchSeconds (normalizeTs s) = false →
      searchMinutes (normalizeTs s) = false →
      searchHours (normalizeTs s) = false →
      containsSub "yesterday".data (normalizeTs s) = false →
      searchDaysCap (normalizeTs s) = none →
      searchWeeksCap (normalizeTs s) = some n →
      parse_timestamp s now = some ((n : Int) * 7)) ∧
    (∀ now : Date, parse_timestamp "3d" now = some 3) ∧
    (∀ now : Date, parse_timestamp "2w" now = some 14) := by
  refine ⟨?_, ?_, fun _ => rfl, fun _ => rfl⟩
  · intro s now n hph hsec hmin hhr hyes hd
    have hne : (normalizeTs s).isEmpty = false := by
      cases he : normalizeTs s with
      | nil => rw [he] at hd; exact Option.noConfusion hd
      | cons c r => rfl
    rw [parse_timestamp, parse_core]
    dsimp only
    rw [if_neg (by simp [hne]), if_neg (by simp [hph]), if_neg (by simp [hsec]),
      if_neg (by simp [hmin]), if_neg (by simp [hhr]), if_neg (by simp [hyes]), hd]
  · intro s now n hph hsec hmin hhr hyes hd hw
    have hne : (normalizeTs s).isEmpty = false := by
      cases he : normalizeTs s with
      | nil => rw [he] at hw; exact Option.noConfusion hw
      | cons c r => rfl
    rw [parse_timestamp, parse_core]
    dsimp only
    rw [if_neg (by simp [hne]), if_neg (by simp [hph]), if_neg (by simp [hsec]),
      if_neg (by simp [hmin]), if_neg (by simp [hhr]), if_neg (by simp [hyes]), hd]
    dsimp only
    rw [hw]

/-- Witness for C6: both shorthand branches at `"3d"` and `"2w"`. -/
theorem claim_C6_witness :
    (searchDaysCap (normalizeTs "3d") = some 3 ∧
      parse_timestamp "3d" ⟨2024, 6, 15⟩ = some 3) ∧
    (searchDaysCap (normalizeTs "2w") = none ∧
      searchWeeksCap (normalizeTs "2w") = some 2 ∧
      parse_timestamp "2w" ⟨2024, 6, 15⟩ = some (2 * 7)) :=
  ⟨⟨by decide,
    claim_C6_day_week.1 "3d" ⟨2024, 6, 15⟩ 3 (by decide) (by decide) (by decide)
      (by decide) (by decide) (by decide)⟩,
   ⟨by decide, by decide,
    claim_C6_day_week.2.1 "2w" ⟨2024, 6, 15⟩ 2 (by decide) (by decide) (by decide)
      (by decide) (by decide) (by decide) (by decide)⟩⟩

/-- The trace-collecting variant computes the same value as the pure one. -/
lemma parse_core_logged_fst (v : Bool) (tl : List Char) (now : Date) :
    (parse_core_logged v tl now).1 = parse_core tl now := by
  rw [parse_core_logged, parse_core]
  dsimp only
  split_ifs <;> try rfl
  cases searchDaysCap tl with
  | some n => rfl
  | none =>
    dsimp only
    cases searchWeeksCap tl with
    | some n => rfl
    | none =>
      dsimp only
      cases tryWithYearFmts date_formats_with_year (cleanupTs tl) now with
      | some r => rfl
      | none =>
        dsimp only
        cases tryNoYearFmts date_formats_no_year (cleanupTs tl) now with
        | some r => rfl
        | none =>
          dsimp only
          cases searchSpecialPats tl with
          | some r => rfl
          | none =>
            dsimp only
            cases fallbackExtract (cleanupTs tl) now with
            | some r => rfl
            | none => rfl

/-- Claim C8: determinism and verbosity non-interference.  The model is a
pure function, so two calls with identical arguments are definitionally
equal; moreover the value component of the verbose variant (which also
collects the diagnostic trace that `verbose=True` would print) is identical
for every verbosity flag and equals the pure resolver's value — diagnostics
affect only the trace component. -/
theorem claim_C8_verbose_pure :
    ∀ (v : Bool) (ts : String) (now : Date),
      (parse_timestamp_to_days v ts now).1 = parse_timestamp ts now ∧
      (parse_timestamp_to_days true ts now).1 = (parse_timestamp_to_days false ts now).1 ∧
      parse_timestamp ts now = parse_timestamp ts now := by
  intro v ts now
  refine ⟨parse_core_logged_fst v _ now, ?_, rfl⟩
  rw [parse_timestamp_to_days, parse_timestamp_to_days,
    parse_core_logged_fst true _ now, parse_core_logged_fst false _ now]

/-! ## Decimal-representation lemmas (for the reference-year roundtrip) -/

lemma digitChar_isDigit {k : Nat} (h : k ≤ 9) : (digitChar k).isDigit = true := by
  interval_cases k <;> decide

lemma charVal_digitChar {k : Nat} (h : k ≤ 9) : charVal (digitChar k) = k := by
  interval_cases k <;> decide

lemma isWsC_digitChar {k : Nat} (h : k ≤ 9) : isWsC (digitChar k) = false := by
  interval_cases k <;> decide

lemma decimalDigitsF_succ (f n : Nat) :
    decimalDigitsF (f + 1) n =
      if n < 10 then [digitChar n]
      else decimalDigitsF f (n / 10) ++ [digitChar (n % 10)] := rfl

/-- The fuel is irrelevant as long as it bounds the digit count. -/
lemma decimalDigitsF_irrel :
    ∀ (f1 f2 n : Nat), n < 10 ^ f1 → n < 10 ^ f2 →
      decimalDigitsF f1 n = decimalDigitsF f2 n := by
  intro f1
  induction f1 with
  | zero =>
    intro f2 n h1 h2
    have hn : n = 0 := by simpa using h1
    subst hn
    cases f2 with
    | zero => rfl
    | succ g => rw [decimalDigitsF_succ, if_pos (by omega)]; rfl
  | succ f ih =>
    intro f2 n h1 h2
    by_cases hn : n < 10
    · cases f2 with
      | zero =>
        have : n = 0 := by simpa using h2
        subst this
        rw [decimalDigitsF_succ, if_pos (by omega)]; rfl
      | succ g => rw [decimalDigitsF_succ, if_pos hn, decimalDigitsF_succ, if_pos hn]
    · cases f2 with
      | zero => exact absurd h2 (by simp; omega)
      | succ g =>
        rw [decimalDigitsF_succ, if_neg hn, decimalDigitsF_succ, if_neg hn]
        have hd1 : n / 10 < 10 ^ f := by
          rw [Nat.div_lt_iff_lt_mul (by norm_num)]
          calc n < 10 ^ (f + 1) := h1
          _ = 10 ^ f * 10 := by ring
        have hd2 : n / 10 < 10 ^ g := by
          rw [Nat.div_lt_iff_lt_mul (by norm_num)]
          calc n < 10 ^ (g + 1) := h2
          _ = 10 ^ g * 10 := by ring
        rw [ih g (n / 10) hd1 hd2]

/-- The decimal digits of a four-digit number, e.g. of `f"{now.year}"` for a
realistic reference year. -/
lemma decimalDigits_four {y : Nat} (h1 : 1000 ≤ y) (h2 : y ≤ 9999) :
    decimalDigits y =
      [digitChar (y / 1000), digitChar (y / 100 % 10),
       digitChar (y / 10 % 10), digitChar (y % 10)] := by
  have hp : (10 : Nat) ^ 4 = 10000 := by norm_num
  have hy4 : y < 10 ^ 4 := by omega
  have hyy : y < 10 ^ y := Nat.lt_pow_self (by norm_num) y
  rw [decimalDigits, decimalDigitsF_irrel y 4 y hyy hy4]
  rw [show (4 : Nat) = 3 + 1 from rfl, decimalDigitsF_succ, if_neg (by omega)]
  rw [show (3 : Nat) = 2 + 1 from rfl, decimalDigitsF_succ, if_neg (by omega)]
  rw [show (2 : Nat) = 1 + 1 from rfl, decimalDigitsF_succ, if_neg (by omega)]
  rw [show (1 : Nat) = 0 + 1 from rfl, decimalDigitsF_succ, if_pos (by omega)]
  rw [Nat.div_div_eq_div_mul, Nat.div_div_eq_div_mul, Nat.div_div_eq_div_mul]
  norm_num

/-- Running `"%d %B %Y"` on `"29 february"` followed by four digit
characters: the whole string is consumed and the fields are
(year-from-digits, february, 29). -/
lemma strptime_29feb_digits (c1 c2 c3 c4 : Char) (a1 a2 a3 a4 : Nat)
    (h1 : c1.isDigit = true) (h2 : c2.isDigit = true)
    (h3 : c3.isDigit = true) (h4 : c4.isDigit = true)
    (hw1 : isWsC c1 = false)
    (hv1 : charVal c1 = a1) (hv2 : charVal c2 = a2)
    (hv3 : charVal c3 = a3) (hv4 : charVal c4 = a4) :
    strptimeDate [FTok.fD, FTok.fWs, FTok.fB, FTok.fWs, FTok.fY]
      ("29 february".data ++ ' ' :: [c1, c2, c3, c4]) =
      some (((a1 * 10 + a2) * 10 + a3) * 10 + a4, 2, 29) := by
  rw [strptimeDate]
  have step1 : runToks [FTok.fD, FTok.fWs, FTok.fB, FTok.fWs, FTok.fY]
      ⟨none, none, none⟩ ("29 february".data ++ ' ' :: [c1, c2, c3, c4]) =
      runToks [FTok.fY] ⟨none, some 2, some 29⟩ ([c1, c2, c3, c4].dropWhile isWsC) := rfl
  have hdrop : [c1, c2, c3, c4].dropWhile isWsC = [c1, c2, c3, c4] := by
    rw [List.dropWhile_cons_of_neg (by simp [hw1])]
  rw [step1, hdrop]
  simp [runToks, runTok, parseY4, h1, h2, h3, h4, hv1, hv2, hv3, hv4]

/-- The reconstructed string `"29 february <year>"` parses back to
(year, 2, 29) for any four-digit year. -/
lemma strptimeDate_29feb_year (y : Nat) (hy1 : 1000 ≤ y) (hy2 : y ≤ 9999) :
    strptimeDate [FTok.fD, FTok.fWs, FTok.fB, FTok.fWs, FTok.fY]
      ("29 february".data ++ ' ' :: decimalDigits y) = some (y, 2, 29) := by
  rw [decimalDigits_four hy1 hy2]
  rw [strptime_29feb_digits (digitChar (y / 1000)) (digitChar (y / 100 % 10))
    (digitChar (y / 10 % 10)) (digitChar (y % 10))
    (y / 1000) (y / 100 % 10) (y / 10 % 10) (y % 10)
    (digitChar_isDigit (by omega)) (digitChar_isDigit (by omega))
    (digitChar_isDigit (by omega)) (digitChar_isDigit (by omega))
    (isWsC_digitChar (by omega))
    (charVal_digitChar (by omega)) (charVal_digitChar (by omega))
    (charVal_digitChar (by omega)) (charVal_digitChar (by omega))]
  have harith : ((y / 1000 * 10 + y / 100 % 10) * 10 + y / 10 % 10) * 10 + y % 10 = y := by
    omega
  rw [harith]

/-- The `"%d %B"` without-year attempt on cleaned `"29 february"` with the
reference year appended. -/
lemma strptimeNoYear_dB_29feb (y : Nat) (hy1 : 1000 ≤ y) (hy2 : y ≤ 9999) :
    strptimeNoYear fmt_dB "29 february".data y = some (y, 2, 29) := by
  rw [strptimeNoYear]
  exact strptimeDate_29feb_year y hy1 hy2

/-- Claim C1: yearless-date resolution.  When a without-year template
structurally matches (with the reference year appended, so the candidate is
built in the reference instant's year) and both the candidate and its
previous-year rebuild are constructible dates, the stage returns the
whole-day difference from the candidate to the reference — rebuilt with
`reference year - 1` exactly when the candidate falls strictly after the
reference date.  Concretely, `resolve("13 Feb")` against 2024-02-01 returns
the day difference to 2023-02-13 (= 353), and against 2024-02-20 returns 7. -/
theorem claim_C1_yearless :
    (∀ (f : List FTok) (fs : List (List FTok)) (cs : List Char) (now : Date) (m d : Nat),
      validDate now.year now.month now.day = true →
      strptimeNoYear f cs now.year = some (now.year, m, d) →
      validDate now.year m d = true →
      validDate (now.year - 1) m d = true →
      tryNoYearFmts (f :: fs) cs now =
        some (diffDays now
          (if dateAfter (now.year, m, d) now then (now.year - 1, m, d)
           else (now.year, m, d)))) ∧
    parse_timestamp "13 Feb" ⟨2024, 2, 1⟩ = some (diffDays ⟨2024, 2, 1⟩ (2023, 2, 13)) ∧
    parse_timestamp "13 Feb" ⟨2024, 2, 1⟩ = some 353 ∧
    parse_timestamp "13 Feb" ⟨2024, 2, 20⟩ = some 7 := by
  refine ⟨?_, by decide, by decide, by decide⟩
  intro f fs cs now m d hvn hp hv hv1
  rw [tryNoYearFmts, hp]
  dsimp only
  rw [if_pos hv]
  by_cases ha : dateAfter (now.year, m, d) now = true
  · rw [if_pos ha, if_pos hv1, if_pos ha]
    have hnot : dateAfter (now.year - 1, m, d) now = false := by
      have h1 : 1 ≤ now.year := (validDate_iff.mp hvn).1
      simp only [dateAfter, decide_eq_false_iff_not]
      omega
    have := diffDays_nonneg_of_not_after hvn hv1 hnot
    congr 1
    omega
  · have ha' : dateAfter (now.year, m, d) now = false := by
      cases hx : dateAfter (now.year, m, d) now
      · rfl
      · exact absurd hx ha
    rw [if_neg ha, if_neg ha]
    have := diffDays_nonneg_of_not_after hvn hv ha'
    congr 1
    omega

/-- Witness for C1: the yearless stage at `"13 february"` against reference
2024-02-01, instantiated with the actual first without-year template. -/
theorem claim_C1_witness :
    validDate 2024 2 1 = true ∧
    strptimeNoYear fmt_dB "13 february".data 2024 = some (2024, 2, 13) ∧
    validDate 2024 2 13 = true ∧
    validDate 2023 2 13 = true ∧
    tryNoYearFmts (fmt_dB :: [fmt_Bd]) "13 february".data ⟨2024, 2, 1⟩ =
      some (diffDays ⟨2024, 2, 1⟩
        (if dateAfter (2024, 2, 13) ⟨2024, 2, 1⟩ then (2023, 2, 13)
         else (2024, 2, 13))) :=
  ⟨by decide, by decide, by decide, by decide,
   claim_C1_yearless.1 fmt_dB [fmt_Bd] "13 february".data ⟨2024, 2, 1⟩ 2 13
     (by decide) (by decide) (by decide) (by decide)⟩

/-- Claim C10 (implicit): a yearless `"29 feb"` resolved against a reference
in a leap year strictly before February 29 is unparseable.  The current-year
candidate Feb-29 is valid but in the future; the rebuild with
`reference year - 1` targets Feb 29 of a non-leap year, whose construction
failure is swallowed, and every later stage (the remaining without-year
templates, the special patterns and the loose fallback, which hits the same
invalid rebuild) also fails, so the result is `none`. -/
theorem claim_C10_feb29_unparseable :
    ∀ now : Date,
      validDate now.year now.month now.day = true →
      1000 ≤ now.year →
      isLeap now.year = true →
      dateAfter (now.year, 2, 29) now = true →
      parse_timestamp "29 feb" now = none := by
  intro now hvn hy1000 hleap hbefore
  have hy : now.year ≤ 9999 := (validDate_iff.mp hvn).2.1
  have hstep : parse_timestamp "29 feb" now =
      (match tryNoYearFmts date_formats_no_year "29 february".data now with
       | some r => some r
       | none => fallbackExtract "29 february".data now) := rfl
  have hval29 : validDate now.year 2 29 = true := by
    simp [validDate, daysInMonth, daysInMonthL, hleap]
    omega
  have hleap' : isLeap (now.year - 1) = false := by
    simp only [isLeap, Bool.and_eq_true, decide_eq_true_eq] at hleap
    have h40 : ¬ ((now.year - 1) % 4 = 0) := by omega
    simp [isLeap, h40]
  have hval28 : validDate (now.year - 1) 2 29 = false := by
    simp [validDate, daysInMonth, daysInMonthL, hleap']
  have hnone : tryNoYearFmts date_formats_no_year "29 february".data now = none := by
    rw [date_formats_no_year, tryNoYearFmts,
      strptimeNoYear_dB_29feb now.year hy1000 hy]
    dsimp only
    rw [if_pos hval29, if_pos hbefore, if_neg (by simp [hval28])]
    rfl
  have hfb : fallbackExtract "29 february".data now = none := by
    have hsearch : searchPos matchFallbackAt "29 february".data =
        some ("29".data, "february".data, none) := by decide
    have hlk : (lookupMonth month_mappings "february".data).getD "february".data =
        "february".data := by decide
    have hlist : ("29".data ++ ' ' :: ("february".data ++ ' ' :: decimalDigits now.year)) =
        ("29 february".data ++ ' ' :: decimalDigits now.year) := by simp
    rw [fallbackExtract, hsearch]
    dsimp only
    rw [hlk, hlist]
    have h1 : strptimeDate fmt_fallback
        ("29 february".data ++ ' ' :: decimalDigits now.year) = some (now.year, 2, 29) :=
      strptimeDate_29feb_year now.year hy1000 hy
    rw [h1]
    dsimp only
    rw [if_pos hval29, if_pos hbefore, if_neg (by simp [hval28])]
  rw [hstep, hnone]
  exact hfb

/-- Witness for C10 at the concrete reference 2024-02-10. -/
theorem claim_C10_witness :
    validDate 2024 2 10 = true ∧ 1000 ≤ 2024 ∧ isLeap 2024 = true ∧
    dateAfter (2024, 2, 29) ⟨2024, 2, 10⟩ = true ∧
    parse_timestamp "29 feb" ⟨2024, 2, 10⟩ = none :=
  ⟨by decide, by decide, by decide, by decide,
   claim_C10_feb29_unparseable ⟨2024, 2, 10⟩ (by decide) (by decide) (by decide) (by decide)⟩
